import Mathlib

/- Verification development for the METAR/SPECI report decoder in
   src/condao_weather_app/metar_parser.py.

   The Python regular-expression scans are embedded as explicit character-list
   matchers with Python's leftmost-match, greedy-with-backtracking semantics.
   Character classes are modelled over the ASCII range that METAR text uses
   (the Python patterns run in Unicode mode, but every character the decoder
   is concerned with is ASCII).  The decode timestamp, produced by
   datetime.now().isoformat() in the source, is modelled as an explicit extra
   argument to parse_metar so that the wall-clock dependence is visible in the
   type. -/

/-- ASCII word character, the model of the regex class backslash-w: letters,
digits and underscore. -/
def isWordC (c : Char) : Bool := c.isAlphanum || c == '_'

/-- Word-character test on an optional character; `none` (no character, i.e.
start of text) counts as a non-word position. -/
def isWordO : Option Char → Bool
  | none => false
  | some c => isWordC c

/-- Whether a character list starts with a word character; the empty list
(end of text) counts as a non-word position. -/
def headIsWord : List Char → Bool
  | [] => false
  | c :: _ => isWordC c

/-- Numeric value of an ASCII digit character. -/
def digitVal (c : Char) : Nat := c.toNat - 48

/-- Value of a digit string, as Python int() computes it on a decimal
digit-only string. -/
def digitsToNat (cs : List Char) : Nat := cs.foldl (fun a c => a * 10 + digitVal c) 0

/-- Consume exactly `n` ASCII digits from the front of a character list,
returning the digits and the remainder; the model of the regex piece `\d{n}`. -/
def takeDigits : Nat → List Char → Option (List Char × List Char)
  | 0, cs => some ([], cs)
  | _ + 1, [] => none
  | n + 1, c :: cs =>
    if c.isDigit then
      match takeDigits n cs with
      | some (d, r) => some (c :: d, r)
      | none => none
    else none

/-- First-some choice on options; the model of regex alternation and of
Python's `x if x is not None else y` control flow. -/
def orElseO : Option α → Option α → Option α
  | some x, _ => some x
  | none, b => b

/-- One step of the scanning cursor used by the search combinator: the pair
holds the previous character (for word-boundary tests) and the remaining
input. -/
def stepC : Option Char × List Char → Option Char × List Char
  | (p, []) => (p, [])
  | (_, c :: r) => (some c, r)

/-- Advance the scanning cursor `n` positions. -/
def advC : Nat → Option Char × List Char → Option Char × List Char
  | 0, st => st
  | n + 1, st => advC n (stepC st)

/-- Run a positional matcher at offset `n` of a cursor state. -/
def matchAtPos (m : Option Char → List Char → Option α)
    (st : Option Char × List Char) (n : Nat) : Option α :=
  m (advC n st).1 (advC n st).2

/-- Leftmost-match search: try the matcher at every position from left to
right and return the first success; the model of Python's re.search. -/
def searchFrom (m : Option Char → List Char → Option α) :
    Option Char → List Char → Option α
  | p, [] => m p []
  | p, c :: r =>
    match m p (c :: r) with
    | some x => some x
    | none => searchFrom m (some c) r

theorem advC_nil (m : Nat) (p : Option Char) : advC m (p, []) = (p, []) := by
  induction m with
  | zero => rfl
  | succ n ih => simpa [advC, stepC] using ih

theorem searchFrom_eq_some {α : Type} (m : Option Char → List Char → Option α) :
    ∀ (cs : List Char) (p : Option Char) (r : α), searchFrom m p cs = some r →
      ∃ n, matchAtPos m (p, cs) n = some r ∧ ∀ k < n, matchAtPos m (p, cs) k = none := by
  intro cs
  induction cs with
  | nil =>
    intro p r h
    exact ⟨0, h, fun k hk => absurd hk (Nat.not_lt_zero k)⟩
  | cons c rest ih =>
    intro p r h
    cases hm : m p (c :: rest) with
    | some x =>
      refine ⟨0, ?_, fun k hk => absurd hk (Nat.not_lt_zero k)⟩
      have : searchFrom m p (c :: rest) = some x := by
        simp [searchFrom, hm]
      rw [this] at h
      simpa [matchAtPos, advC, hm] using h
    | none =>
      have hrec : searchFrom m (some c) rest = some r := by
        simpa [searchFrom, hm] using h
      obtain ⟨n, h1, h2⟩ := ih (some c) r hrec
      refine ⟨n + 1, ?_, ?_⟩
      · simpa [matchAtPos, advC, stepC] using h1
      · intro k hk
        cases k with
        | zero => simpa [matchAtPos, advC] using hm
        | succ j =>
          have hj : j < n := Nat.lt_of_succ_lt_succ hk
          simpa [matchAtPos, advC, stepC] using h2 j hj

theorem searchFrom_eq_none {α : Type} (m : Option Char → List Char → Option α)
    (h0 : ∀ p, m p [] = none) :
    ∀ (cs : List Char) (p : Option Char), searchFrom m p cs = none →
      ∀ n, matchAtPos m (p, cs) n = none := by
  intro cs
  induction cs with
  | nil =>
    intro p _ n
    simp [matchAtPos, advC_nil, h0]
  | cons c rest ih =>
    intro p h n
    cases hm : m p (c :: rest) with
    | some x => simp [searchFrom, hm] at h
    | none =>
      have hrec : searchFrom m (some c) rest = none := by
        simpa [searchFrom, hm] using h
      cases n with
      | zero => simpa [matchAtPos, advC] using hm
      | succ j =>
        simpa [matchAtPos, advC, stepC] using ih (some c) hrec j

theorem searchFrom_ne_none_of_match {α : Type} (m : Option Char → List Char → Option α)
    (cs : List Char) (p : Option Char) (n : Nat) (r : α)
    (h : matchAtPos m (p, cs) n = some r) : searchFrom m p cs ≠ none := by
  intro hnone
  induction cs generalizing p n with
  | nil =>
    have h0 : m p [] = none := by simpa [searchFrom] using hnone
    rw [matchAtPos, advC_nil, h0] at h
    exact Option.noConfusion h
  | cons c rest ih =>
    cases hm : m p (c :: rest) with
    | some x => simp [searchFrom, hm] at hnone
    | none =>
      have hrec : searchFrom m (some c) rest = none := by
        simpa [searchFrom, hm] using hnone
      cases n with
      | zero =>
        rw [matchAtPos] at h
        simp [advC] at h
        rw [hm] at h
        exact Option.noConfusion h
      | succ j =>
        have : matchAtPos m (some c, rest) j = some r := by
          simpa [matchAtPos, advC, stepC] using h
        exact ih (some c) j this hrec

/- ### Temperature / dewpoint extractor

   Source: _parse_temp_pair, a search for `\b(M?\d{2})/(M?\d{2})\b`.
   Since each group starts with `M` or a digit (a word character), the
   leading word boundary holds exactly when the previous character is not a
   word character, and the trailing boundary exactly when the next character
   is absent or not a word character. -/

/-- One side of the temperature group: `M?\d{2}`.  If the side starts with
`M` the only viable reading is `M` plus two digits (backtracking to the
empty `M?` cannot succeed because `M` is not a digit). -/
def parseSignedSide : List Char → Option (List Char × List Char)
  | 'M' :: cs =>
    match takeDigits 2 cs with
    | some (d, r) => some ('M' :: d, r)
    | none => none
  | cs =>
    match takeDigits 2 cs with
    | some (d, r) => some (d, r)
    | none => none

/-- Positional matcher for `\b(M?\d{2})/(M?\d{2})\b`, returning the two raw
group strings. -/
def matchTempAt (pv : Option Char) (cs : List Char) : Option (List Char × List Char) :=
  if isWordO pv then none
  else
    match parseSignedSide cs with
    | none => none
    | some (t, r1) =>
      match r1 with
      | '/' :: r2 =>
        match parseSignedSide r2 with
        | none => none
        | some (d, r3) => if headIsWord r3 then none else some (t, d)
      | _ => none

/-- Decoding of one side, the model of the inner to_value of the source:
an `M` prefix negates the following two-digit value. -/
def toValue (s : List Char) : Int :=
  if s.head? = some 'M' then -((digitsToNat s.tail : Nat) : Int)
  else ((digitsToNat s : Nat) : Int)

/-- Embedding of _parse_temp_pair. -/
def parse_temp_pair (s : String) : Option Int × Option Int :=
  match searchFrom matchTempAt none s.data with
  | none => (none, none)
  | some (t, d) => (some (toValue t), some (toValue d))

/- ### Wind extractor

   Source: _parse_wind, a search for `(\d{3}|VRB)(\d{2,3})(?:G(\d{2,3}))?KT`.
   No word boundaries are involved, so the matcher ignores the previous
   character.  Greedy backtracking order: direction `\d{3}` before `VRB`
   (they can never both apply); speed three digits before two; gust group
   present (three digits before two) before absent. -/

/-- The direction group `(\d{3}|VRB)`. -/
def matchWindDir (cs : List Char) : Option (List Char × List Char) :=
  match takeDigits 3 cs with
  | some (d, r) => some (d, r)
  | none =>
    match cs with
    | 'V' :: 'R' :: 'B' :: r => some (['V', 'R', 'B'], r)
    | _ => none

/-- The literal `KT` terminator (the regex match simply ends there; trailing
text is unconstrained). -/
def expectKT : List Char → Bool
  | 'K' :: 'T' :: _ => true
  | _ => false

/-- The optional gust group plus terminator `(?:G(\d{2,3}))?KT`, in greedy
backtracking order. -/
def gustOpt (cs : List Char) : Option (Option (List Char)) :=
  orElseO
    (match cs with
     | 'G' :: r =>
       orElseO
         (match takeDigits 3 r with
          | some (g, r2) => if expectKT r2 then some (some g) else none
          | none => none)
         (match takeDigits 2 r with
          | some (g, r2) => if expectKT r2 then some (some g) else none
          | none => none)
     | _ => none)
    (if expectKT cs then some none else none)

/-- The speed group `(\d{2,3})` followed by the gust/terminator tail, in
greedy backtracking order. -/
def windSpeedGust (cs : List Char) : Option (List Char × Option (List Char)) :=
  orElseO
    (match takeDigits 3 cs with
     | some (s, r) =>
       match gustOpt r with
       | some g => some (s, g)
       | none => none
     | none => none)
    (match takeDigits 2 cs with
     | some (s, r) =>
       match gustOpt r with
       | some g => some (s, g)
       | none => none
     | none => none)

/-- Positional matcher for the full wind group, returning the three raw
group strings (direction, speed, optional gust). -/
def matchWindAt (_pv : Option Char) (cs : List Char) :
    Option (List Char × List Char × Option (List Char)) :=
  match matchWindDir cs with
  | none => none
  | some (d, r) =>
    match windSpeedGust r with
    | none => none
    | some (s, g) => some (d, s, g)

/-- Embedding of _parse_wind: decode the first match; the literal `VRB`
direction becomes `none`. -/
def parse_wind (s : String) : Option Nat × Option Nat × Option Nat :=
  match searchFrom matchWindAt none s.data with
  | none => (none, none, none)
  | some (d, sp, g) =>
    ((if d = ['V', 'R', 'B'] then none else some (digitsToNat d)),
     some (digitsToNat sp),
     g.map digitsToNat)

/- ### Visibility extractor

   Source: _parse_visibility, a search for `\b(\d{4})\b`. -/

/-- Positional matcher for `\b(\d{4})\b`. -/
def matchVisAt (pv : Option Char) (cs : List Char) : Option (List Char) :=
  if isWordO pv then none
  else
    match takeDigits 4 cs with
    | none => none
    | some (d, r) => if headIsWord r then none else some d

/-- Embedding of _parse_visibility. -/
def parse_visibility (s : String) : Option Nat :=
  match searchFrom matchVisAt none s.data with
  | none => none
  | some d => some (digitsToNat d)

/- ### Station and observation-time extractor

   Source: _parse_station_and_time.  The text is split into whitespace
   tokens (Python str.split(): runs of whitespace, no empty tokens, leading
   and trailing whitespace ignored).  The marker loop examines every token;
   at each `METAR`/`SPECI` token whose successor is four uppercase letters it
   assigns the station and keeps scanning, so the follower of the LAST such
   marker wins.  If no marker assigned a station, the first 4-uppercase-letter
   token is used.  The observation time is independently the first token of
   six digits followed by `Z`. -/

/-- Tokenizer: Python str.split() on ASCII whitespace, accumulating the
current token in reverse. -/
def splitWSAux : List Char → List Char → List String
  | [], cur => if cur = [] then [] else [String.mk cur.reverse]
  | c :: cs, cur =>
    if c.isWhitespace then
      (if cur = [] then [] else [String.mk cur.reverse]) ++ splitWSAux cs []
    else splitWSAux cs (c :: cur)

/-- Whitespace tokenization of a string. -/
def splitWS (s : String) : List String := splitWSAux s.data []

/-- Report-type markers: the Python test `tok in ("METAR", "SPECI")`. -/
def isMarker (t : String) : Bool := t == "METAR" || t == "SPECI"

/-- The station-token test `re.match(r'^[A-Z]{4}$', tok)`: exactly four
uppercase ASCII letters.  (Tokens produced by str.split() contain no
newline, so the `$` anchor is a plain end-of-string here.) -/
def isStationTok (t : String) : Bool :=
  t.data.length == 4 && t.data.all Char.isUpper

/-- The observation-time test `re.match(r'^\d{6}Z$', tok)`: exactly six
digits followed by `Z`. -/
def isObsTok (t : String) : Bool :=
  match t.data with
  | [a, b, c, d, e, f, g] =>
    a.isDigit && b.isDigit && c.isDigit && d.isDigit && e.isDigit && f.isDigit && g == 'Z'
  | _ => false

/-- The marker loop of the source: walk all tokens, overwriting the
accumulator whenever a marker with a 4-letter follower is seen. -/
def stationLoop : Option String → List String → Option String
  | acc, [] => acc
  | acc, t :: rest =>
    stationLoop
      (match rest with
       | next :: _ => if isMarker t && isStationTok next then some next else acc
       | [] => acc)
      rest

/-- Embedding of _parse_station_and_time: marker-derived station with
first-4-letter-token fallback, plus the first observation-time token. -/
def parse_station_and_time (s : String) : Option String × Option String :=
  (orElseO (stationLoop none (splitWS s)) ((splitWS s).find? isStationTok),
   (splitWS s).find? isObsTok)

/-- All followers of qualifying markers, in token order.  This is the
specification-side view of the marker loop: the loop's result is the last
element of this list. -/
def markerFollowers : List String → List String
  | [] => []
  | t :: rest =>
    (match rest with
     | next :: _ => if isMarker t && isStationTok next then [next] else []
     | [] => []) ++ markerFollowers rest

/-- Station selection exactly as claim C1 words it: the 4-letter token
following the FIRST qualifying marker (scanning stopping there), with the
first-4-letter-token fallback.  Stated for refutation only; the code keeps
the follower of the last qualifying marker instead. -/
def claimStationC1 (tokens : List String) : Option String :=
  orElseO ((markerFollowers tokens).head?) (tokens.find? isStationTok)

/- ### Cloud-layer extractor

   Source: _parse_clouds, re.findall over `\b(FEW|SCT|BKN|OVC)(\d{3})\b`
   followed by a loop that appends converted layers and breaks once three
   layers have been collected.  findall scans left to right and resumes
   immediately after each (six-character) match. -/

/-- The amount alternation `(FEW|SCT|BKN|OVC)` at the current position. -/
def matchAmount : List Char → Option (String × List Char)
  | 'F' :: 'E' :: 'W' :: r => some ("FEW", r)
  | 'S' :: 'C' :: 'T' :: r => some ("SCT", r)
  | 'B' :: 'K' :: 'N' :: r => some ("BKN", r)
  | 'O' :: 'V' :: 'C' :: r => some ("OVC", r)
  | _ => none

/-- Positional matcher for `\b(FEW|SCT|BKN|OVC)(\d{3})\b`, returning the
amount label and the three raw digit characters. -/
def matchCloudAt (pv : Option Char) (cs : List Char) : Option (String × List Char) :=
  if isWordO pv then none
  else
    match matchAmount cs with
    | none => none
    | some (a, r) =>
      match takeDigits 3 r with
      | none => none
      | some (h, r2) => if headIsWord r2 then none else some (a, h)

/-- re.findall for the cloud pattern, fuelled so that the recursion is
structural: scan left to right; each match spans exactly six characters, so
on success resume six characters later (the new previous character is the
sixth character of the match).  Every step consumes at least one character,
so fuel equal to the input length (as `scanClouds` supplies) is enough. -/
def scanCloudsF : Nat → Option Char → List Char → List (String × List Char)
  | 0, _, _ => []
  | _ + 1, _, [] => []
  | fuel + 1, pv, c :: rest =>
    match matchCloudAt pv (c :: rest) with
    | some p => p :: scanCloudsF fuel ((c :: rest)[5]?) ((c :: rest).drop 6)
    | none => scanCloudsF fuel (some c) rest

/-- re.findall for the cloud pattern over a whole text. -/
def scanClouds (pv : Option Char) (cs : List Char) : List (String × List Char) :=
  scanCloudsF cs.length pv cs

/-- Feet-to-metres conversion as the source computes it:
round(height_ft * 0.3048).  The Python source evaluates the product in
binary floating point and rounds half-to-even; for every height 100*c with
c ≤ 999 the exact value 762*c/25 is at distance at least 1/50 from every
half-integer and the double rounding error is many orders of magnitude
smaller, so the float result, half-even rounding, exact rational rounding
and the round-half-up integer arithmetic used here all coincide
(`heightM_eq_round` below proves the agreement with the exact rational
rounding for every input). -/
def heightM (ft : Nat) : Int := ((ft * 3048 + 5000) / 10000 : Nat)

/-- The integer arithmetic of `heightM` computes exactly
round(ft * 0.3048) over the rationals. -/
theorem heightM_eq_round (ft : Nat) :
    heightM ft = round ((ft : ℚ) * (3048 / 10000)) := by
  rw [round_eq]
  have h : (ft : ℚ) * (3048 / 10000) + 1 / 2
      = ((ft * 3048 + 5000 : ℕ) : ℚ) / ((10000 : ℕ) : ℚ) := by
    push_cast
    ring
  rw [h, Rat.floor_natCast_div_natCast]
  unfold heightM
  push_cast
  rfl

/-- One decoded cloud layer. -/
structure CloudLayer where
  amount : String
  height_ft : Nat
  height_m : Int
deriving DecidableEq, Repr

/-- Conversion of one findall match into a layer, as the loop body does it:
height_ft = int(digits) * 100, height_m = round(height_ft * 0.3048). -/
def cloudOf (p : String × List Char) : CloudLayer :=
  { amount := p.1
    height_ft := digitsToNat p.2 * 100
    height_m := heightM (digitsToNat p.2 * 100) }

/-- The collection loop of the source: append each converted match and stop
once three layers have been collected. -/
def cloudLoop : List (String × List Char) → List CloudLayer → List CloudLayer
  | [], acc => acc
  | p :: rest, acc =>
    if (acc ++ [cloudOf p]).length ≥ 3 then acc ++ [cloudOf p]
    else cloudLoop rest (acc ++ [cloudOf p])

/-- Embedding of _parse_clouds. -/
def parse_clouds (s : String) : List CloudLayer :=
  cloudLoop (scanClouds none s.data) []

/- ### Weather / precipitation classifier

   Source: WEATHER_PATTERNS, an insertion-ordered dict from regex pattern to
   (label, is-precipitation flag, intensity label or None), iterated in
   insertion order by _parse_weather_and_rain.  Two pattern shapes occur:
   plain substring patterns (`\+RA`, `\-RA`, `\+SHRA`, `\-SHRA`, `TSRA` -
   the escaped `+`/`-` are literal characters) and word-bounded patterns
   (`\bRA\b` and friends, whose words begin and end with letters, so each
   boundary is equivalent to the neighbouring character being absent or a
   non-word character). -/

/-- The two regex shapes used by the weather table. -/
inductive WPat
  | plain (w : List Char)
  | bounded (w : List Char)
deriving DecidableEq

/-- Does `w` occur at the front of `cs`. -/
def hasPrefixSeq : List Char → List Char → Bool
  | [], _ => true
  | _ :: _, [] => false
  | a :: w, c :: cs => a == c && hasPrefixSeq w cs

/-- Does `w` occur anywhere in the text (plain substring search). -/
def containsSeq (w : List Char) : List Char → Bool
  | [] => hasPrefixSeq w []
  | c :: cs => hasPrefixSeq w (c :: cs) || containsSeq w cs

/-- Word-bounded occurrence of `w` at the current position. -/
def boundedHere (w : List Char) (pv : Option Char) (cs : List Char) : Bool :=
  !isWordO pv && hasPrefixSeq w cs && !headIsWord (cs.drop w.length)

/-- Word-bounded occurrence of `w` anywhere in the text. -/
def boundedSearch (w : List Char) : Option Char → List Char → Bool
  | pv, [] => boundedHere w pv []
  | pv, c :: cs => boundedHere w pv (c :: cs) || boundedSearch w (some c) cs

/-- re.search success for one weather pattern. -/
def wMatches (p : WPat) (s : String) : Bool :=
  match p with
  | .plain w => containsSeq w s.data
  | .bounded w => boundedSearch w none s.data

/-- One row of the table: pattern, label, precipitation flag, intensity. -/
structure WEntry where
  pat : WPat
  desc : String
  isRain : Bool
  rType : Option String
deriving DecidableEq

/-- Embedding of WEATHER_PATTERNS in the dict's insertion order. -/
def WEATHER_PATTERNS : List WEntry := [
  ⟨.plain ['+', 'R', 'A'], "大雨", true, some "大雨"⟩,
  ⟨.plain ['-', 'R', 'A'], "小雨", true, some "小雨"⟩,
  ⟨.bounded ['R', 'A'], "中雨", true, some "中雨"⟩,
  ⟨.plain ['+', 'S', 'H', 'R', 'A'], "大阵雨", true, some "大雨"⟩,
  ⟨.plain ['-', 'S', 'H', 'R', 'A'], "小阵雨", true, some "小雨"⟩,
  ⟨.bounded ['S', 'H', 'R', 'A'], "中阵雨", true, some "中雨"⟩,
  ⟨.plain ['T', 'S', 'R', 'A'], "雷雨", true, some "雷阵雨"⟩,
  ⟨.bounded ['T', 'S'], "雷暴", false, none⟩,
  ⟨.bounded ['D', 'Z'], "毛毛雨", true, some "小雨"⟩,
  ⟨.bounded ['F', 'G'], "雾", false, none⟩,
  ⟨.bounded ['B', 'R'], "薄雾", false, none⟩,
  ⟨.bounded ['H', 'Z'], "霾", false, none⟩]

/-- One iteration of the classifier loop: on a match append the label, raise
the precipitation flag if the row is precipitation, and record the row's
intensity if it is the first non-None one from a precipitation row. -/
def weatherStep (text : String) (st : List String × Bool × Option String)
    (e : WEntry) : List String × Bool × Option String :=
  if wMatches e.pat text then
    (st.1 ++ [e.desc],
     st.2.1 || e.isRain,
     if e.isRain && st.2.2.isNone && e.rType.isSome then e.rType else st.2.2)
  else st

/-- Embedding of _parse_weather_and_rain: fold the table in order. -/
def parse_weather_and_rain (text : String) : List String × Bool × Option String :=
  WEATHER_PATTERNS.foldl (weatherStep text) ([], false, none)

/- ### Report assembly

   Source: parse_metar.  The raw text is stripped; the working text is the
   stripped text uppercased; all extractors run on the working text. -/

/-- Python str.strip() on ASCII whitespace. -/
def stripStr (s : String) : String :=
  String.mk (((s.data.dropWhile Char.isWhitespace).reverse.dropWhile Char.isWhitespace).reverse)

/-- Python str.upper() on the ASCII range. -/
def upperStr (s : String) : String := String.mk (s.data.map Char.toUpper)

/-- The decoder's output record, one field per key of the dict the source
returns. -/
structure ParsedReport where
  raw : String
  timestamp : String
  station : Option String
  obs_time : Option String
  temperature : Option Int
  dewpoint : Option Int
  wind_direction : Option Nat
  wind_speed : Option Nat
  wind_gust : Option Nat
  visibility : Option Nat
  weather : List String
  is_raining : Bool
  rain_type : Option String
  clouds : List CloudLayer
deriving DecidableEq, Repr

/-- Embedding of parse_metar.  `now` stands for datetime.now().isoformat(),
the only input besides the report text. -/
def parse_metar (metar_text : String) (now : String) : ParsedReport :=
  { raw := stripStr metar_text
    timestamp := now
    station := (parse_station_and_time (upperStr (stripStr metar_text))).1
    obs_time := (parse_station_and_time (upperStr (stripStr metar_text))).2
    temperature := (parse_temp_pair (upperStr (stripStr metar_text))).1
    dewpoint := (parse_temp_pair (upperStr (stripStr metar_text))).2
    wind_direction := (parse_wind (upperStr (stripStr metar_text))).1
    wind_speed := (parse_wind (upperStr (stripStr metar_text))).2.1
    wind_gust := (parse_wind (upperStr (stripStr metar_text))).2.2
    visibility := parse_visibility (upperStr (stripStr metar_text))
    weather := (parse_weather_and_rain (upperStr (stripStr metar_text))).1
    is_raining := (parse_weather_and_rain (upperStr (stripStr metar_text))).2.1
    rain_type := (parse_weather_and_rain (upperStr (stripStr metar_text))).2.2
    clouds := parse_clouds (upperStr (stripStr metar_text)) }

/- ### Generic lemmas about the classifier fold -/

theorem weatherFold_descs (text : String) (l : List WEntry) :
    ∀ ds ir rt, (l.foldl (weatherStep text) (ds, ir, rt)).1
      = ds ++ (l.filter fun e => wMatches e.pat text).map WEntry.desc := by
  induction l with
  | nil => intro ds ir rt; simp
  | cons e l ih =>
    intro ds ir rt
    by_cases hm : wMatches e.pat text
    · simp [List.foldl_cons, weatherStep, hm, ih]
    · simp [List.foldl_cons, weatherStep, hm, ih]

theorem weatherFold_raining (text : String) (l : List WEntry) :
    ∀ ds ir rt, (l.foldl (weatherStep text) (ds, ir, rt)).2.1
      = (ir || l.any fun e => wMatches e.pat text && e.isRain) := by
  induction l with
  | nil => intro ds ir rt; simp
  | cons e l ih =>
    intro ds ir rt
    by_cases hm : wMatches e.pat text
    · simp [List.foldl_cons, weatherStep, hm, ih, Bool.or_assoc]
    · simp [List.foldl_cons, weatherStep, hm, ih]

theorem weatherFold_rtype_some (text : String) (l : List WEntry) :
    ∀ ds ir r, (l.foldl (weatherStep text) (ds, ir, some r)).2.2 = some r := by
  induction l with
  | nil => intro ds ir r; simp
  | cons e l ih =>
    intro ds ir r
    by_cases hm : wMatches e.pat text
    · simp [List.foldl_cons, weatherStep, hm, ih]
    · simp [List.foldl_cons, weatherStep, hm, ih]

theorem weatherFold_rtype_none (text : String) (l : List WEntry) :
    ∀ ds ir, (l.foldl (weatherStep text) (ds, ir, none)).2.2
      = ((l.filter fun e => wMatches e.pat text && e.isRain && e.rType.isSome).head?).bind
          WEntry.rType := by
  induction l with
  | nil => intro ds ir; simp
  | cons e l ih =>
    intro ds ir
    by_cases hm : wMatches e.pat text
    · by_cases hr : e.isRain
      · cases hs : e.rType with
        | some v =>
          simp [List.foldl_cons, weatherStep, hm, hr, hs, List.filter_cons,
            weatherFold_rtype_some]
        | none =>
          simp [List.foldl_cons, weatherStep, hm, hr, hs, List.filter_cons, ih]
      · simp [List.foldl_cons, weatherStep, hm, hr, List.filter_cons, ih]
    · simp [List.foldl_cons, weatherStep, hm, List.filter_cons, ih]

/- ### Lemmas about the marker loop -/

theorem orElseO_none_right (a : Option α) : orElseO a none = a := by
  cases a <;> rfl

theorem orElseO_assoc (a b c : Option α) :
    orElseO (orElseO a b) c = orElseO a (orElseO b c) := by
  cases a <;> rfl

theorem getLast?_cons_orElse (a : α) (l : List α) :
    (a :: l).getLast? = orElseO l.getLast? (some a) := by
  induction l generalizing a with
  | nil => rfl
  | cons b l ih =>
    rw [List.getLast?_cons_cons, ih b]
    cases hl : l.getLast? <;> simp [orElseO]

theorem stationLoop_eq (tokens : List String) :
    ∀ acc, stationLoop acc tokens = orElseO ((markerFollowers tokens).getLast?) acc := by
  induction tokens with
  | nil => intro acc; simp [stationLoop, markerFollowers, orElseO]
  | cons t rest ih =>
    intro acc
    cases rest with
    | nil => simp [stationLoop, markerFollowers, orElseO]
    | cons next rest2 =>
      by_cases hc : isMarker t && isStationTok next
      · rw [show stationLoop acc (t :: next :: rest2)
              = stationLoop (some next) (next :: rest2) by simp [stationLoop, hc]]
        rw [ih (some next)]
        rw [show markerFollowers (t :: next :: rest2)
              = next :: markerFollowers (next :: rest2) by simp [markerFollowers, hc]]
        rw [getLast?_cons_orElse, orElseO_assoc]
        rfl
      · rw [show stationLoop acc (t :: next :: rest2)
              = stationLoop acc (next :: rest2) by simp [stationLoop, hc]]
        rw [ih acc]
        rw [show markerFollowers (t :: next :: rest2)
              = markerFollowers (next :: rest2) by simp [markerFollowers, hc]]

/- ### Lemmas about digits and the cloud scanner -/

theorem takeDigits_spec :
    ∀ (n : Nat) (cs d r : List Char), takeDigits n cs = some (d, r) →
      d.length = n ∧ (∀ c ∈ d, c.isDigit) ∧ cs = d ++ r := by
  intro n
  induction n with
  | zero =>
    intro cs d r h
    simp [takeDigits] at h
    obtain ⟨h1, h2⟩ := h
    subst h1
    subst h2
    exact ⟨rfl, by simp, by simp⟩
  | succ m ih =>
    intro cs d r h
    cases cs with
    | nil => simp [takeDigits] at h
    | cons c cs2 =>
      by_cases hd : c.isDigit
      · rw [takeDigits, if_pos hd] at h
        cases ht : takeDigits m cs2 with
        | none => rw [ht] at h; exact absurd h (by simp)
        | some pr =>
          obtain ⟨d2, r2⟩ := pr
          rw [ht] at h
          simp at h
          obtain ⟨hd2, hr2⟩ := h
          obtain ⟨hl, hdig, happ⟩ := ih cs2 d2 r2 ht
          subst hd2 hr2
          refine ⟨by simp [hl], ?_, by simp [happ]⟩
          intro x hx
          rcases List.mem_cons.mp hx with h1 | h2
          · exact h1 ▸ hd
          · exact hdig x h2
      · rw [takeDigits, if_neg hd] at h
        exact absurd h (by simp)

theorem digitVal_le_nine (c : Char) (h : c.isDigit = true) : digitVal c ≤ 9 := by
  have h2 : c.val ≤ 57 := by
    simp [Char.isDigit] at h
    exact h.2
  have h3 : c.val.toNat ≤ 57 := UInt32.toNat_le_of_le (by decide) h2
  unfold digitVal Char.toNat
  omega

theorem digitsFold_lt (cs : List Char) :
    (∀ c ∈ cs, c.isDigit) → ∀ a : Nat,
      cs.foldl (fun a c => a * 10 + digitVal c) a < (a + 1) * 10 ^ cs.length := by
  induction cs with
  | nil => intro _ a; simp
  | cons c cs ih =>
    intro hdig a
    have hc : digitVal c ≤ 9 := digitVal_le_nine c (hdig c (List.mem_cons_self c cs))
    have step := ih (fun x hx => hdig x (List.mem_cons_of_mem c hx)) (a * 10 + digitVal c)
    have hle : (a * 10 + digitVal c + 1) * 10 ^ cs.length ≤ (a + 1) * (10 * 10 ^ cs.length) := by
      have : a * 10 + digitVal c + 1 ≤ (a + 1) * 10 := by omega
      calc (a * 10 + digitVal c + 1) * 10 ^ cs.length
          ≤ ((a + 1) * 10) * 10 ^ cs.length := Nat.mul_le_mul_right _ this
        _ = (a + 1) * (10 * 10 ^ cs.length) := by ring
    calc (c :: cs).foldl (fun a c => a * 10 + digitVal c) a
        = cs.foldl (fun a c => a * 10 + digitVal c) (a * 10 + digitVal c) := by
          simp [List.foldl_cons]
      _ < (a * 10 + digitVal c + 1) * 10 ^ cs.length := step
      _ ≤ (a + 1) * (10 * 10 ^ cs.length) := hle
      _ = (a + 1) * 10 ^ (c :: cs).length := by simp [List.length_cons, pow_succ]; ring

theorem digitsToNat_le_999 (cs : List Char) (hlen : cs.length = 3)
    (hdig : ∀ c ∈ cs, c.isDigit) : digitsToNat cs ≤ 999 := by
  have := digitsFold_lt cs hdig 0
  rw [hlen] at this
  unfold digitsToNat
  omega

theorem matchCloudAt_digits (pv : Option Char) (cs : List Char) (a : String)
    (h : List Char) (hm : matchCloudAt pv cs = some (a, h)) :
    h.length = 3 ∧ ∀ c ∈ h, c.isDigit := by
  unfold matchCloudAt at hm
  split at hm
  · exact absurd hm (by simp)
  · split at hm
    · exact absurd hm (by simp)
    · rename_i a2 r ha
      split at hm
      · exact absurd hm (by simp)
      · rename_i d r2 ht
        split at hm
        · exact absurd hm (by simp)
        · simp at hm
          obtain ⟨hlen, hdig, _⟩ := takeDigits_spec 3 r d r2 ht
          exact ⟨hm.2 ▸ hlen, hm.2 ▸ hdig⟩

theorem scanCloudsF_digits :
    ∀ (n : Nat) (pv : Option Char) (cs : List Char) (p : String × List Char),
      p ∈ scanCloudsF n pv cs → p.2.length = 3 ∧ ∀ c ∈ p.2, c.isDigit := by
  intro n
  induction n with
  | zero => intro pv cs p hp; simp [scanCloudsF] at hp
  | succ m ih =>
    intro pv cs p hp
    cases cs with
    | nil => simp [scanCloudsF] at hp
    | cons c rest =>
      rw [scanCloudsF] at hp
      cases hm : matchCloudAt pv (c :: rest) with
      | some q =>
        rw [hm] at hp
        rcases List.mem_cons.mp hp with h1 | h2
        · subst h1
          exact matchCloudAt_digits pv (c :: rest) p.1 p.2 (by simpa using hm)
        · exact ih _ _ p h2
      | none =>
        rw [hm] at hp
        exact ih _ _ p hp

theorem scanClouds_digits (cs : List Char) (pv : Option Char) (p : String × List Char)
    (hp : p ∈ scanClouds pv cs) : p.2.length = 3 ∧ ∀ c ∈ p.2, c.isDigit :=
  scanCloudsF_digits cs.length pv cs p hp

theorem cloudLoop_eq (ms : List (String × List Char)) :
    ∀ acc : List CloudLayer, acc.length < 3 →
      cloudLoop ms acc = acc ++ (ms.take (3 - acc.length)).map cloudOf := by
  induction ms with
  | nil => intro acc _; simp [cloudLoop]
  | cons p ms ih =>
    intro acc hacc
    rw [cloudLoop]
    by_cases hfull : (acc ++ [cloudOf p]).length ≥ 3
    · rw [if_pos hfull]
      have h3 : 3 - acc.length = 1 := by simp at hfull; omega
      simp [h3]
    · rw [if_neg hfull]
      have hlt : (acc ++ [cloudOf p]).length < 3 := by omega
      rw [ih (acc ++ [cloudOf p]) hlt]
      have harith : 3 - acc.length = (3 - (acc ++ [cloudOf p]).length) + 1 := by
        simp
        omega
      rw [harith, List.take_succ_cons]
      simp

theorem parse_clouds_eq (s : String) :
    parse_clouds s = ((scanClouds none s.data).take 3).map cloudOf := by
  unfold parse_clouds
  rw [cloudLoop_eq (scanClouds none s.data) [] (by simp)]
  simp

/- ### Table-specific bridges for the classifier -/

theorem wtable_filter_bridge (text : String) :
    (WEATHER_PATTERNS.filter fun e => wMatches e.pat text && e.isRain && e.rType.isSome)
      = (WEATHER_PATTERNS.filter fun e => e.isRain && wMatches e.pat text) := by
  apply List.filter_congr
  intro e he
  simp only [WEATHER_PATTERNS, List.mem_cons, List.not_mem_nil, or_false] at he
  rcases he with rfl | rfl | rfl | rfl | rfl | rfl | rfl | rfl | rfl | rfl | rfl | rfl <;>
    cases hw : wMatches (WEntry.mk _ _ _ _).pat text <;> simp_all

theorem any_rain_comm (text : String) (l : List WEntry) :
    (l.any fun e => wMatches e.pat text && e.isRain)
      = (l.any fun e => e.isRain && wMatches e.pat text) := by
  induction l with
  | nil => rfl
  | cons e l ih => simp [List.any_cons, ih, Bool.and_comm]

theorem any_iff_filter_head_rtype (l : List WEntry) (p : WEntry → Bool)
    (hs : ∀ e ∈ l, p e = true → e.rType.isSome) :
    l.any p = true ↔ ((l.filter p).head?).bind WEntry.rType ≠ none := by
  cases hf : l.filter p with
  | nil =>
    have hnone : ∀ e ∈ l, ¬p e = true := by
      intro e he hpe
      have : e ∈ l.filter p := List.mem_filter.mpr ⟨he, hpe⟩
      rw [hf] at this
      exact absurd this (List.not_mem_nil e)
    constructor
    · intro hany
      obtain ⟨e, he, hpe⟩ := List.any_eq_true.mp hany
      exact absurd hpe (hnone e he)
    · intro hne
      simp at hne
    
  | cons a as =>
    have hamem : a ∈ l.filter p := by rw [hf]; exact List.mem_cons_self a as
    obtain ⟨hal, hap⟩ := List.mem_filter.mp hamem
    obtain ⟨v, hv⟩ := Option.isSome_iff_exists.mp (hs a hal hap)
    constructor
    · intro _
      simp [hf, hv]
    · intro _
      exact List.any_eq_true.mpr ⟨a, hal, hap⟩

/-- The raining flag and the recorded intensity, as functions of the table. -/
theorem raining_iff_rtype (text : String) :
    (parse_weather_and_rain text).2.1 = true ↔ (parse_weather_and_rain text).2.2 ≠ none := by
  have h1 : (parse_weather_and_rain text).2.1
      = (WEATHER_PATTERNS.any fun e => e.isRain && wMatches e.pat text) := by
    unfold parse_weather_and_rain
    rw [weatherFold_raining text WEATHER_PATTERNS [] false none, Bool.false_or,
      any_rain_comm]
  have h2 : (parse_weather_and_rain text).2.2
      = ((WEATHER_PATTERNS.filter fun e => e.isRain && wMatches e.pat text).head?).bind
          WEntry.rType := by
    unfold parse_weather_and_rain
    rw [weatherFold_rtype_none text WEATHER_PATTERNS [] false, wtable_filter_bridge]
  rw [h1, h2]
  apply any_iff_filter_head_rtype
  intro e he hp
  have hr : e.isRain = true := (Bool.and_eq_true _ _ |>.mp hp).1
  simp only [WEATHER_PATTERNS, List.mem_cons, List.not_mem_nil, or_false] at he
  rcases he with rfl | rfl | rfl | rfl | rfl | rfl | rfl | rfl | rfl | rfl | rfl | rfl <;>
    simp_all

/- ### Claims -/

/-- Claim C1, counterexample.  The claim asserts first-marker priority for
station extraction, but the marker loop in _parse_station_and_time never
stops: each qualifying marker overwrites the station, so the follower of
the LAST qualifying marker wins.  On `METAR ABCD SPECI EFGH` the code
yields `EFGH` while the claim's first-marker rule yields `ABCD`. -/
theorem claim_C1_counterexample :
    (parse_station_and_time "METAR ABCD SPECI EFGH").1 = some "EFGH"
    ∧ claimStationC1 (splitWS "METAR ABCD SPECI EFGH") = some "ABCD"
    ∧ (some "EFGH" : Option String) ≠ some "ABCD" :=
  ⟨by decide, by decide, by decide⟩

/-- Claim C1, amended: station extraction is two-phase with LAST-marker
priority.  When some `METAR`/`SPECI` token is immediately followed by a
4-uppercase-letter token, the station is the follower of the last such
marker; only when no marker-based station exists is the station the first
4-letter token in left-to-right order; when neither rule matches the
station is `None`.  The second conjunct ties the pipeline field to the
extractor. -/
theorem claim_C1_amended (text : String) :
    (parse_station_and_time text).1
      = orElseO ((markerFollowers (splitWS text)).getLast?)
          ((splitWS text).find? isStationTok)
    ∧ ∀ now, (parse_metar text now).station
        = (parse_station_and_time (upperStr (stripStr text))).1 := by
  constructor
  · show orElseO (stationLoop none (splitWS text)) ((splitWS text).find? isStationTok) = _
    rw [stationLoop_eq (splitWS text) none, orElseO_none_right]
  · intro now
    rfl

/-- Claim C2: the classifier is driven by table order.  `weather` lists one
label per table entry whose pattern matches, in table iteration order, and
the recorded intensity is the `rType` of the first precipitation entry (in
table order) that matches; the concrete Example 4 input `+RA RA TSRA`
yields the three labels in table order and heavy intensity. -/
theorem claim_C2 (text : String) :
    (parse_weather_and_rain text).1
        = (WEATHER_PATTERNS.filter fun e => wMatches e.pat text).map WEntry.desc
    ∧ (parse_weather_and_rain text).2.2
        = ((WEATHER_PATTERNS.filter fun e => e.isRain && wMatches e.pat text).head?).bind
            WEntry.rType
    ∧ (parse_metar "+RA RA TSRA" "").weather = ["大雨", "中雨", "雷雨"]
    ∧ (parse_metar "+RA RA TSRA" "").rain_type = some "大雨" := by
  refine ⟨?_, ?_, by decide, by decide⟩
  · unfold parse_weather_and_rain
    rw [weatherFold_descs text WEATHER_PATTERNS [] false none]
    simp
  · unfold parse_weather_and_rain
    rw [weatherFold_rtype_none text WEATHER_PATTERNS [] false, wtable_filter_bridge]

/-- Claim C7: decoding is total (every extractor in the embedding is a
total function, so `parse_metar` returns a `ParsedReport` for every input
string with no error path), and on the empty string every optional field is
absent, both lists are empty and the precipitation flag is false. -/
theorem claim_C7 (now : String) :
    parse_metar "" now =
      { raw := "", timestamp := now, station := none, obs_time := none,
        temperature := none, dewpoint := none, wind_direction := none,
        wind_speed := none, wind_gust := none, visibility := none,
        weather := [], is_raining := false, rain_type := none, clouds := [] } := by
  unfold parse_metar
  rw [ParsedReport.mk.injEq]
  exact ⟨by decide, rfl, by decide, by decide, by decide, by decide, by decide,
    by decide, by decide, by decide, by decide, by decide, by decide, by decide⟩

/-- Claim C8: the precipitation flag is set exactly when some
precipitation-flagged table entry matches, whichever entry recorded the
intensity; the Example 2 report, whose only phenomenon is the
non-precipitation `TS`, decodes with `is_raining` false and no intensity. -/
theorem claim_C8 (text : String) :
    ((parse_weather_and_rain text).2.1 = true ↔
        ∃ e ∈ WEATHER_PATTERNS, e.isRain = true ∧ wMatches e.pat text = true)
    ∧ (parse_metar "VVTS 210530Z VRB02KT 9999 TS FEW018 M02/M05" "").is_raining = false
    ∧ (parse_metar "VVTS 210530Z VRB02KT 9999 TS FEW018 M02/M05" "").rain_type = none
    ∧ (parse_metar "VVTS 210530Z VRB02KT 9999 TS FEW018 M02/M05" "").weather = ["雷暴"] := by
  refine ⟨?_, by decide, by decide, by decide⟩
  unfold parse_weather_and_rain
  rw [weatherFold_raining text WEATHER_PATTERNS [] false none, Bool.false_or,
    List.any_eq_true]
  constructor
  · rintro ⟨e, he, hp⟩
    obtain ⟨hw, hr⟩ := Bool.and_eq_true _ _ |>.mp hp
    exact ⟨e, he, hr, hw⟩
  · rintro ⟨e, he, hr, hw⟩
    exact ⟨e, he, by simp [hw, hr]⟩

/-- Claim C8 witness: instantiating the iff at the report `RA` shows the
flag raised by the moderate-rain entry. -/
theorem claim_C8_witness : (parse_weather_and_rain "RA").2.1 = true :=
  (claim_C8 "RA").1.mpr
    ⟨⟨.bounded ['R', 'A'], "中雨", true, some "中雨"⟩, by decide, rfl, by decide⟩

/-- Claim C9: determinism.  Two decodes of the same text agree on every
field other than the informational timestamp, whatever the two decode
times are; no field but `timestamp` depends on the `now` input. -/
theorem claim_C9 (s now1 now2 : String) :
    (parse_metar s now1).raw = (parse_metar s now2).raw
    ∧ (parse_metar s now1).station = (parse_metar s now2).station
    ∧ (parse_metar s now1).obs_time = (parse_metar s now2).obs_time
    ∧ (parse_metar s now1).temperature = (parse_metar s now2).temperature
    ∧ (parse_metar s now1).dewpoint = (parse_metar s now2).dewpoint
    ∧ (parse_metar s now1).wind_direction = (parse_metar s now2).wind_direction
    ∧ (parse_metar s now1).wind_speed = (parse_metar s now2).wind_speed
    ∧ (parse_metar s now1).wind_gust = (parse_metar s now2).wind_gust
    ∧ (parse_metar s now1).visibility = (parse_metar s now2).visibility
    ∧ (parse_metar s now1).weather = (parse_metar s now2).weather
    ∧ (parse_metar s now1).is_raining = (parse_metar s now2).is_raining
    ∧ (parse_metar s now1).rain_type = (parse_metar s now2).rain_type
    ∧ (parse_metar s now1).clouds = (parse_metar s now2).clouds :=
  ⟨rfl, rfl, rfl, rfl, rfl, rfl, rfl, rfl, rfl, rfl, rfl, rfl, rfl⟩

/-- Claim C10: the implicit invariant that the precipitation flag is true
exactly when an intensity was recorded, for every decode; every
precipitation row of the table carries a non-None intensity, and only
precipitation rows ever set one. -/
theorem claim_C10 (s now : String) :
    (parse_metar s now).is_raining = true ↔ (parse_metar s now).rain_type ≠ none := by
  have hr : (parse_metar s now).is_raining
      = (parse_weather_and_rain (upperStr (stripStr s))).2.1 := rfl
  have ht : (parse_metar s now).rain_type
      = (parse_weather_and_rain (upperStr (stripStr s))).2.2 := rfl
  rw [hr, ht]
  exact raining_iff_rtype (upperStr (stripStr s))

/-- Claim C10 witness: at the report `RA` the flag is up and an intensity
is recorded. -/
theorem claim_C10_witness : (parse_metar "RA" "").rain_type ≠ none :=
  (claim_C10 "RA" "").mp (by decide)

theorem matchWindAt_nil (p : Option Char) : matchWindAt p [] = none := rfl

theorem matchTempAt_nil (p : Option Char) : matchTempAt p [] = none := by
  unfold matchTempAt
  split <;> rfl

theorem matchVisAt_nil (p : Option Char) : matchVisAt p [] = none := by
  unfold matchVisAt
  split <;> rfl

/-- Claim C3: wind decoding.  Only the first (leftmost) wind-group match is
used; the direction decodes to its 3-digit value unless the group is the
variable marker `VRB`, in which case it is `None`; the speed decodes to its
digits; the gust is `None` exactly when the match has no gust group; and
when no position of the text matches, all three wind fields are `None`.
The last conjunct ties the pipeline fields to the extractor. -/
theorem claim_C3 (text : String) :
    (searchFrom matchWindAt none text.data = none →
        parse_wind text = (none, none, none))
    ∧ (searchFrom matchWindAt none text.data = none ↔
        ∀ n, matchAtPos matchWindAt (none, text.data) n = none)
    ∧ (∀ d sp g, searchFrom matchWindAt none text.data = some (d, sp, g) →
        (∃ n, matchAtPos matchWindAt (none, text.data) n = some (d, sp, g)
            ∧ ∀ k < n, matchAtPos matchWindAt (none, text.data) k = none)
        ∧ parse_wind text
            = ((if d = ['V', 'R', 'B'] then none else some (digitsToNat d)),
               some (digitsToNat sp), g.map digitsToNat)
        ∧ ((parse_wind text).2.2 = none ↔ g = none))
    ∧ ∀ now, ((parse_metar text now).wind_direction, (parse_metar text now).wind_speed,
        (parse_metar text now).wind_gust) = parse_wind (upperStr (stripStr text)) := by
  refine ⟨?_, ⟨?_, ?_⟩, ?_, fun now => rfl⟩
  · intro h
    unfold parse_wind
    rw [h]
  · exact fun h => searchFrom_eq_none matchWindAt matchWindAt_nil text.data none h
  · intro hall
    cases hs : searchFrom matchWindAt none text.data with
    | none => rfl
    | some r =>
      obtain ⟨n, h1, _⟩ := searchFrom_eq_some matchWindAt text.data none r hs
      rw [hall n] at h1
      exact absurd h1 (by simp)
  · intro d sp g hs
    refine ⟨searchFrom_eq_some matchWindAt text.data none _ hs, ?_, ?_⟩
    · unfold parse_wind
      rw [hs]
    · unfold parse_wind
      rw [hs]
      simp [Option.map_eq_none']

/-- Claim C3 witness at the report `27015G25KT`. -/
theorem claim_C3_witness : parse_wind "27015G25KT" = (some 270, some 15, some 25) := by
  have h := ((claim_C3 "27015G25KT").2.2.1 ['2', '7', '0'] ['1', '5'] (some ['2', '5'])
    (by decide)).2.1
  exact h.trans (by decide)

/-- Claim C5: temperature/dewpoint decoding.  Only the first (leftmost)
match of the temperature group is used; an `M`-prefixed side decodes to the
negation of its two-digit value (so `M00` decodes to 0), a digits-only side
to the value itself; and when no position matches, both fields are `None`.
The last conjunct ties the pipeline fields to the extractor. -/
theorem claim_C5 (text : String) :
    (searchFrom matchTempAt none text.data = none →
        parse_temp_pair text = (none, none))
    ∧ (∀ t d, searchFrom matchTempAt none text.data = some (t, d) →
        (∃ n, matchAtPos matchTempAt (none, text.data) n = some (t, d)
            ∧ ∀ k < n, matchAtPos matchTempAt (none, text.data) k = none)
        ∧ parse_temp_pair text = (some (toValue t), some (toValue d)))
    ∧ toValue ['M', '0', '0'] = 0
    ∧ (∀ c1 c2 : Char, c1 ≠ 'M' → toValue [c1, c2] = (digitsToNat [c1, c2] : Int))
    ∧ (∀ c1 c2 : Char, toValue ['M', c1, c2] = -(digitsToNat [c1, c2] : Int))
    ∧ ∀ now, ((parse_metar text now).temperature, (parse_metar text now).dewpoint)
        = parse_temp_pair (upperStr (stripStr text)) := by
  refine ⟨?_, ?_, by decide, ?_, ?_, fun now => rfl⟩
  · intro h
    unfold parse_temp_pair
    rw [h]
  · intro t d hs
    refine ⟨searchFrom_eq_some matchTempAt text.data none _ hs, ?_⟩
    unfold parse_temp_pair
    rw [hs]
  · intro c1 c2 hne
    simp [toValue, hne]
  · intro c1 c2
    simp [toValue]

/-- Claim C5 witness at the group `M02/M05`. -/
theorem claim_C5_witness : parse_temp_pair "M02/M05" = (some (-2), some (-5)) := by
  have h := ((claim_C5 "M02/M05").2.1 ['M', '0', '2'] ['M', '0', '5'] (by decide)).2
  exact h.trans (by decide)

/-- Visibility exactly as claim C6 words it: the integer value of the first
whitespace-delimited 4-digit token of the normalized text.  Stated for
refutation only; the code's pattern uses word boundaries, not whitespace
delimiting. -/
def specVisibilityToken (s : String) : Option Nat :=
  ((splitWS (upperStr (stripStr s))).find? fun t =>
      t.data.length == 4 && t.data.all Char.isDigit).map
    fun t => digitsToNat t.data

/-- Claim C6, counterexample.  On input `00/1234` there is no
whitespace-delimited 4-digit token, yet the code's `\b(\d{4})\b` search
finds `1234` after the slash (a word boundary) and reports visibility
1234 where the claim requires `None`. -/
theorem claim_C6_counterexample :
    (parse_metar "00/1234" "").visibility = some 1234
    ∧ specVisibilityToken "00/1234" = none :=
  ⟨by decide, by decide⟩

/-- Claim C6, amended: `visibility_meters` equals the integer value of the
first word-boundary-delimited 4-digit run in the text (a run of exactly
four digits not adjacent to any letter, digit or underscore), interpreted
as meters with no range or unit validation, and is `None` when no such run
exists.  The last conjunct ties the pipeline field to the extractor. -/
theorem claim_C6_amended (text : String) :
    (searchFrom matchVisAt none text.data = none → parse_visibility text = none)
    ∧ (searchFrom matchVisAt none text.data = none ↔
        ∀ n, matchAtPos matchVisAt (none, text.data) n = none)
    ∧ (∀ d, searchFrom matchVisAt none text.data = some d →
        (∃ n, matchAtPos matchVisAt (none, text.data) n = some d
            ∧ ∀ k < n, matchAtPos matchVisAt (none, text.data) k = none)
        ∧ parse_visibility text = some (digitsToNat d))
    ∧ ∀ now, (parse_metar text now).visibility
        = parse_visibility (upperStr (stripStr text)) := by
  refine ⟨?_, ⟨?_, ?_⟩, ?_, fun now => rfl⟩
  · intro h
    unfold parse_visibility
    rw [h]
  · exact fun h => searchFrom_eq_none matchVisAt matchVisAt_nil text.data none h
  · intro hall
    cases hs : searchFrom matchVisAt none text.data with
    | none => rfl
    | some r =>
      obtain ⟨n, h1, _⟩ := searchFrom_eq_some matchVisAt text.data none r hs
      rw [hall n] at h1
      exact absurd h1 (by simp)
  · intro d hs
    refine ⟨searchFrom_eq_some matchVisAt text.data none _ hs, ?_⟩
    unfold parse_visibility
    rw [hs]

/-- Claim C6 witness at the report `4000`. -/
theorem claim_C6_witness : parse_visibility "4000" = some 4000 := by
  have h := ((claim_C6_amended "4000").2.2.1 ['4', '0', '0', '0'] (by decide)).2
  exact h.trans (by decide)

/-- Claim C4: cloud-layer decoding.  The decoded layers are exactly the
first three findall matches of the cloud pattern, converted in text order
(so occurrences beyond the third are silently dropped); at most three
layers are kept; and every layer's height is a multiple of 100 feet coming
from a 3-digit code, with metres computed as round(feet * 0.3048).  The
last conjunct ties the pipeline field to the extractor. -/
theorem claim_C4 (text : String) :
    parse_clouds text = ((scanClouds none text.data).take 3).map cloudOf
    ∧ (parse_clouds text).length ≤ 3
    ∧ (∀ layer ∈ parse_clouds text,
        (∃ k, k ≤ 999 ∧ layer.height_ft = k * 100)
        ∧ layer.height_m = round ((layer.height_ft : ℚ) * (3048 / 10000)))
    ∧ ∀ now, (parse_metar text now).clouds = parse_clouds (upperStr (stripStr text)) := by
  refine ⟨parse_clouds_eq text, ?_, ?_, fun now => rfl⟩
  · rw [parse_clouds_eq]
    simp [List.length_take]
  · intro layer hl
    rw [parse_clouds_eq] at hl
    obtain ⟨p, hp, hlayer⟩ := List.mem_map.mp hl
    have hp2 : p ∈ scanClouds none text.data := List.take_subset 3 _ hp
    obtain ⟨hlen, hdig⟩ := scanClouds_digits text.data none p hp2
    subst hlayer
    exact ⟨⟨digitsToNat p.2, digitsToNat_le_999 p.2 hlen hdig, rfl⟩,
      heightM_eq_round (digitsToNat p.2 * 100)⟩

/-- Claim C4 witness: the first layer of a four-code report, showing the
height arithmetic and that only three layers survive. -/
theorem claim_C4_witness :
    ((∃ k, k ≤ 999 ∧ (⟨"FEW", 2000, 610⟩ : CloudLayer).height_ft = k * 100)
      ∧ (⟨"FEW", 2000, 610⟩ : CloudLayer).height_m
          = round (((⟨"FEW", 2000, 610⟩ : CloudLayer).height_ft : ℚ) * (3048 / 10000))) :=
  (claim_C4 "FEW020 SCT025 BKN015 OVC010").2.2.1 ⟨"FEW", 2000, 610⟩ (by decide)
